import Mathlib

/-!
Shallow embedding of the ReAct agent loop variants
(1.agent.py, 2.agent-streaming.py, 6.agent-streaming-styled-final-check-safeguards.py):
string-level parsing helpers, the response grammar parsers, the shell-command
executor, the safety gate, the answer verifier, and the orchestration loop,
with theorems checking the specification's claims about them.
-/

/-- Python-style whitespace test (the ASCII characters recognized by
str.strip and the regex whitespace class). -/
def isPySpace (c : Char) : Bool :=
  c == ' ' || c == '\t' || c == '\n' || c == '\r' || c == '\x0b' || c == '\x0c'

/-- startsWithChars text pat : does text begin with pat (Python str.startswith). -/
def startsWithChars : List Char → List Char → Bool
  | _, [] => true
  | [], _ :: _ => false
  | c :: cs, p :: ps => c == p && startsWithChars cs ps

/-- Find the first occurrence of pat in the text, returning the text before it
and the text after it (Python substring search / str.split(pat, 1)). -/
def findSplitChars (pat : List Char) : List Char → Option (List Char × List Char)
  | [] => if startsWithChars [] pat then some ([], []) else none
  | c :: cs =>
    if startsWithChars (c :: cs) pat then some ([], List.drop pat.length (c :: cs))
    else
      match findSplitChars pat cs with
      | some (pre, post) => some (c :: pre, post)
      | none => none

/-- Python `pat in s` substring containment. -/
def occursStr (pat s : String) : Bool :=
  (findSplitChars pat.data s.data).isSome

/-- Drop leading Python whitespace. -/
def dropWhileWs : List Char → List Char
  | [] => []
  | c :: cs => if isPySpace c then dropWhileWs cs else c :: cs

/-- Python str.strip on a character list. -/
def stripChars (l : List Char) : List Char :=
  (dropWhileWs (dropWhileWs l).reverse).reverse

/-- Python str.strip. -/
def pyStrip (s : String) : String :=
  String.mk (stripChars s.data)

/-- Python str.upper (ASCII, as used on the gate responses). -/
def pyUpper (s : String) : String :=
  String.mk (s.data.map Char.toUpper)

/-- The streaming variants' section markers. -/
def mThought : String := "|Thought:|"

def mAction : String := "|Action:|"

def mFinal : String := "|Final Answer:|"

/-- Lazy-capture semantics of `marker(.*?)(?:stop1|stop2|$)` with DOTALL:
the capture runs from just after the marker to the first position where one of
the stop strings begins, or to the end of the text. -/
def cutAtAny (stops : List (List Char)) : List Char → List Char
  | [] => []
  | c :: cs =>
    if stops.any (fun p => startsWithChars (c :: cs) p) then []
    else c :: cutAtAny stops cs

/-- Capture group of `re.search(marker(.*?)(?:stop1|stop2|$), s, re.DOTALL)`:
none when the marker is absent. -/
def sectionCapture2 (marker : List Char) (stops : List (List Char)) (s : List Char) :
    Option (List Char) :=
  (findSplitChars marker s).map (fun pr => cutAtAny stops pr.2)

/-- Result of parse_output in the streaming variants: Python returns a
(thought, action, final_answer) triple with empty strings for missing
sections and an optional (tool, argument) pair. -/
structure ParsedTurn where
  thought : String
  action : Option (String × String)
  finalAnswer : String
deriving DecidableEq, Repr

/-- Python: if action_str and (a colon occurs in it), split on the first colon
into a stripped (tool, argument) pair; otherwise no action. -/
def mkAction (actionStr : List Char) : Option (String × String) :=
  if actionStr.isEmpty then none
  else
    match findSplitChars [':'] actionStr with
    | some (tool, arg) => some (String.mk (stripChars tool), String.mk (stripChars arg))
    | none => none

/-- parse_output of 2.agent-streaming.py: three regex searches with full
pipe-delimited markers as section terminators, each captured section stripped. -/
def parseOutput2 (output : String) : ParsedTurn :=
  let s := output.data
  let thoughtSec := sectionCapture2 mThought.data [mAction.data, mFinal.data] s
  let actionSec := sectionCapture2 mAction.data [mThought.data, mFinal.data] s
  let finalSec := sectionCapture2 mFinal.data [mThought.data, mAction.data] s
  { thought := String.mk (stripChars (thoughtSec.getD []))
    action := mkAction (stripChars (actionSec.getD []))
    finalAnswer := String.mk (stripChars (finalSec.getD [])) }




/-- Can `stop1`, `stop2` or `$` match at the start of t (file 6 regex tails,
stop tokens carry no trailing pipe; `$` matches at end of input)? -/
def stopOrEnd6 (stops : List (List Char)) (t : List Char) : Bool :=
  t.isEmpty || stops.any (fun p => startsWithChars t p)

/-- Does `\s*(?:stop1|stop2|$)` match at t (some run of leading whitespace may
be consumed before a stop token or the end)? -/
def wsThenStop6 (stops : List (List Char)) : List Char → Bool
  | [] => true
  | c :: cs => stopOrEnd6 stops (c :: cs) || (isPySpace c && wsThenStop6 stops cs)

/-- Does the tail `\|?\s*(?:stop1|stop2|$)` of the final-variant regexes match
at t (an optional pipe, then whitespace, then a stop token or the end)? -/
def tailMatches6 (stops : List (List Char)) (t : List Char) : Bool :=
  wsThenStop6 stops t ||
    (match t with
     | '|' :: t2 => wsThenStop6 stops t2
     | _ => false)

/-- Lazy-capture semantics of `marker(.*?)\|?\s*(?:stop1|stop2|$)` with DOTALL:
the capture runs to the first position where the tail matches. -/
def cutAt6 (stops : List (List Char)) : List Char → List Char
  | [] => []
  | c :: cs => if tailMatches6 stops (c :: cs) then [] else c :: cutAt6 stops cs

/-- Capture group of a final-variant section regex: none when the marker is
absent. -/
def sectionCapture6 (marker : List Char) (stops : List (List Char)) (s : List Char) :
    Option (List Char) :=
  (findSplitChars marker s).map (fun pr => cutAt6 stops pr.2)

/-- parse_output of 6.agent-streaming-styled-final-check-safeguards.py: the
section terminators are `\|?\s*` followed by a stop token without its trailing
pipe, or the end of the text. -/
def parseOutput6 (output : String) : ParsedTurn :=
  let s := output.data
  let thoughtSec := sectionCapture6 mThought.data ["|Action:".data, "|Final Answer:".data] s
  let actionSec := sectionCapture6 mAction.data ["|Thought:".data, "|Final Answer:".data] s
  let finalSec := sectionCapture6 mFinal.data ["|Thought:".data, "|Action:".data] s
  { thought := String.mk (stripChars (thoughtSec.getD []))
    action := mkAction (stripChars (actionSec.getD []))
    finalAnswer := String.mk (stripChars (finalSec.getD [])) }




/-- The line-start markers of 1.agent.py. -/
def markerT : String := "Thought:"

def markerA : String := "Action:"

def markerF : String := "Final Answer:"

/-- Python "\n".join. -/
def joinNL : List String → String
  | [] => ""
  | [l] => l
  | l :: ls => l ++ "\n" ++ joinNL ls

/-- Python str.split for a one-character separator (here a newline). -/
def splitNLChars : List Char → List (List Char)
  | [] => [[]]
  | c :: cs =>
    if c == '\n' then [] :: splitNLChars cs
    else
      match splitNLChars cs with
      | l :: ls => (c :: l) :: ls
      | [] => [[c]]

/-- Result of parse_output in 1.agent.py: final_answer is None when no line
carries the marker. -/
structure Parsed1 where
  thought : String
  action : Option (String × String)
  finalAnswer : Option String
deriving DecidableEq, Repr

/-- The line loop of parse_output in 1.agent.py: classify each line by its
leading marker; on the first Final Answer line, join its stripped remainder
with every following line and stop. -/
def parse1Go : String → Option (String × String) → List String → Parsed1
  | thought, action, [] => ⟨thought, action, none⟩
  | thought, action, line :: rest =>
    if startsWithChars line.data markerT.data then
      parse1Go (String.mk (stripChars (List.drop markerT.length line.data))) action rest
    else if startsWithChars line.data markerA.data then
      let actionStr := stripChars (List.drop markerA.length line.data)
      let action2 :=
        match findSplitChars [':'] actionStr with
        | some (tool, arg) => some (String.mk (stripChars tool), String.mk (stripChars arg))
        | none => action
      parse1Go thought action2 rest
    else if startsWithChars line.data markerF.data then
      ⟨thought, action,
        some (joinNL (String.mk (stripChars (List.drop markerF.length line.data)) :: rest))⟩
    else
      parse1Go thought action rest

/-- parse_output of 1.agent.py: split the stripped output into lines and scan
them in order. -/
def parseOutput1 (output : String) : Parsed1 :=
  parse1Go "" none ((splitNLChars (pyStrip output).data).map String.mk)



/-- Outcome of subprocess.run on one command: a normal completion with exit
status, stdout and stderr; expiry of the 30-second ceiling (TimeoutExpired, the
runtime kills the child before raising); or any other exception. -/
inductive ExecResult where
  | completed (returncode : Int) (stdout stderr : String)
  | timedOut
  | failed (message : String)
deriving DecidableEq, Repr

/-- run_shell_command of the streaming variants: zero exit gives the stripped
stdout, non-zero exit the stripped stderr behind an Error: tag, the timeout a
fixed message, and any other exception its description behind Exception:. -/
def runShellCommand : ExecResult → String
  | .completed returncode stdout stderr =>
    if returncode = 0 then pyStrip stdout else "Error: " ++ pyStrip stderr
  | .timedOut => "action execution failed with timeout"
  | .failed message => "Exception: " ++ message

/-- The TOOLS registry of every variant holds exactly run_shell_command. -/
def toolsContains (toolName : String) : Bool :=
  toolName == "run_shell_command"

/-- Roles of the conversation turns. -/
inductive Role where
  | system
  | user
  | assistant
deriving DecidableEq, BEq, Repr

/-- Python rendering of a role, as used in the verification prompt. -/
def roleStr : Role → String
  | .system => "system"
  | .user => "user"
  | .assistant => "assistant"

/-- One message of the conversation history. -/
structure Turn where
  role : Role
  content : String
deriving DecidableEq, Repr

/-- The safety-check prompt of is_command_safe, built from the command. -/
def safetyPrompt (command : String) : String :=
  "You have suggested to execute the following command as part of resolving user query: "
    ++ command
    ++ ". Is it possible that the command alters user system in an irreversible manner resulting in data loss or system instability. Please answer POSSIBLE or NOT POSSIBLE."

/-- is_command_safe of 6.agent-streaming-styled-final-check-safeguards.py:
send the safety prompt as an isolated model query, strip and uppercase the
response, and call the command safe when the result starts with NOT POSSIBLE. -/
def isCommandSafe (gateModel : String → String) (command : String) : Bool :=
  let response := gateModel (safetyPrompt command)
  let cleanResponse := pyUpper (pyStrip response)
  startsWithChars cleanResponse.data "NOT POSSIBLE".data



/-- The observation synthesized when the safety guard blocks a command. -/
def blockedObs (arg : String) : String :=
  "Error: Command \x27" ++ arg
    ++ "\x27 was blocked by the safety guard as potentially harmful. The command was not executed."

/-- The verification prompt built after a final answer, from the original
query, the candidate answer and the rendered history. -/
def verificationPrompt (query finalAnswer stepsString : String) : String :=
  "Original ask was: " ++ query ++ "\nFinal answer is: " ++ finalAnswer ++ "\nSteps are:\n"
    ++ stepsString
    ++ "\n\nIs this a good answer given the request? If you have better answer please respond with |Better Answer:| element."

/-- The better-answer extraction of run_agent in the final variant: if the
verification response contains the |Better Answer:| marker, return the
stripped text after its first occurrence, else the original final answer. -/
def verifierResult (finalAnswer verificationResponse : String) : String :=
  match findSplitChars "|Better Answer:|".data verificationResponse.data with
  | some (_, rest) => String.mk (stripChars rest)
  | none => finalAnswer



/-- The external collaborators of the final variant: the main chat model, the
safety-gate model, the command execution environment, and the verifier model.
All are deterministic oracles of their visible input. -/
structure Env where
  model : List Turn → String
  gate : String → String
  exec : String → ExecResult
  verifier : String → String

/-- Instrumentation of one run: each model call with the history it was given,
each safety-gate call, each executed action, each verifier call. -/
inductive Event where
  | modelCall (history : List Turn)
  | gateCall (prompt : String)
  | execCall (tool arg : String)
  | verifierCall (prompt : String)
deriving DecidableEq, Repr

/-- One loop iteration either terminates with a result or continues with an
updated history. -/
inductive StepRes where
  | done (result : String) (evs : List Event)
  | next (history : List Turn) (evs : List Event)
deriving DecidableEq, Repr

/-- Outcome of a whole run: the returned string, the event trace, and the
history at termination. -/
structure RunOut where
  result : String
  events : List Event
  history : List Turn
deriving DecidableEq, Repr

/-- The histories handed to the main chat model, in order. -/
def modelHistories (evs : List Event) : List (List Turn) :=
  evs.filterMap (fun e => match e with | .modelCall h => some h | _ => none)

/-- One iteration of run_agent in 2.agent-streaming.py: parse the response;
a non-empty final answer returns it; a known tool runs and its observation is
appended after the assistant turn; an unknown tool only prints and appends
nothing; otherwise the raw response is appended alone. -/
def agentStep2 (model : List Turn → String) (exec : String → ExecResult)
    (history : List Turn) : StepRes :=
  let raw := model history
  let p := parseOutput2 raw
  if p.finalAnswer ≠ "" then .done p.finalAnswer [.modelCall history]
  else
    match p.action with
    | some (tool, arg) =>
      if toolsContains tool then
        .next (history ++ [⟨Role.assistant, raw⟩,
                           ⟨Role.user, "Observation: " ++ runShellCommand (exec arg)⟩])
              [.modelCall history, .execCall tool arg]
      else
        .next history [.modelCall history]
    | none => .next (history ++ [⟨Role.assistant, raw⟩]) [.modelCall history]

/-- One iteration of run_agent in the final variant: a response holding both
markers is discarded and retried; a non-empty final answer goes through the
verifier; a known run_shell_command action is gated, then executed or blocked;
an unknown tool gets an Error observation; otherwise the raw turn is appended. -/
def agentStep6 (env : Env) (query : String) (history : List Turn) : StepRes :=
  let raw := env.model history
  if occursStr "|Action:|" raw && occursStr "|Final Answer:|" raw then
    .next history [.modelCall history]
  else
    let p := parseOutput6 raw
    if p.finalAnswer ≠ "" then
      let stepsString := joinNL (history.map (fun m => roleStr m.role ++ ": " ++ m.content))
      let vprompt := verificationPrompt query p.finalAnswer stepsString
      .done (verifierResult p.finalAnswer (env.verifier vprompt))
            [.modelCall history, .verifierCall vprompt]
    else
      match p.action with
      | some (tool, arg) =>
        if toolsContains tool then
          if tool == "run_shell_command" && !(isCommandSafe env.gate arg) then
            .next (history ++ [⟨Role.assistant, raw⟩,
                               ⟨Role.user, "Observation: " ++ blockedObs arg⟩])
                  [.modelCall history, .gateCall (safetyPrompt arg)]
          else
            .next (history ++ [⟨Role.assistant, raw⟩,
                               ⟨Role.user, "Observation: " ++ runShellCommand (env.exec arg)⟩])
                  (.modelCall history ::
                    (if tool == "run_shell_command" then [Event.gateCall (safetyPrompt arg)]
                     else []) ++ [Event.execCall tool arg])
        else
          .next (history ++ [⟨Role.assistant, raw⟩,
                             ⟨Role.user, "Observation: Error: Unknown tool: " ++ tool⟩])
                [.modelCall history]
      | none => .next (history ++ [⟨Role.assistant, raw⟩]) [.modelCall history]

/-- The `for step in range(max_steps)` skeleton shared by the variants:
exhausting the budget without a final answer yields the fixed message. -/
def runLoop (step : List Turn → StepRes) : Nat → List Turn → RunOut
  | 0, h => ⟨"Max steps reached without final answer.", [], h⟩
  | fuel + 1, h =>
    match step h with
    | .done res evs => ⟨res, evs, h⟩
    | .next h2 evs =>
      let r := runLoop step fuel h2
      ⟨r.result, evs ++ r.events, r.history⟩

/-- SYSTEM_PROMPT of 2.agent-streaming.py. -/
def systemPrompt2 : String :=
  "\nYou are an AI agent that solves tasks iteratively using Reasoning and Acting (ReAct).\nYour response MUST be in the following format for each step:\n|Thought:| [Your reasoning process here]\nONE OF THE FOLLOWING ELEMENTS:\n|Action:| [tool_name: argument]\nOR \n|Final Answer:| [your final answer]\n\nExplanaition about these possible output sections:\n- |Thought:| Reason step-by-step about what to do next.\n- |Action:| If needed, call a tool in the format \x27tool_name: argument\x27. Available tools: run_shell_command (e.g., \x27run_shell_command: ls -l /home\x27).\n- If you have the final answer, output \x27|Final Answer:| [your answer]\x27.\n\nYou can\x27t have multiple instances of |Thought:| in one response, make all the toughts appear in on |Thought:| element.\nMake sure to never provide both |Action:| and |Final Answer:| elements in one response.\nEven if action to perform is none, do not add |Action:| section to the respose.\nDo not repeat actions unnecessarily. Stop when the query is solved.\nDo not try to install additional software on the computer where you are being executed.\n"

/-- SYSTEM_PROMPT of 6.agent-streaming-styled-final-check-safeguards.py. -/
def systemPrompt6 : String :=
  "\nYou are an AI agent that solves tasks iteratively using Reasoning and Acting (ReAct).\nYour response MUST be in the following format for each step:\n|Thought:| [Your reasoning process here]\nONE OF THE FOLLOWING ELEMENTS:\n|Action:| [tool_name: argument]\nOR \n|Final Answer:| [your final answer]\n\nExplanaition about these possible output sections:\n- |Thought:| Reason step-by-step about what to do next.\n- |Action:| If needed, call a tool in the format \x27tool_name: argument\x27. Available tools: run_shell_command (e.g., \x27run_shell_command: ls -l /home\x27).\n- If you have the final answer, output \x27|Final Answer:| [your answer]\x27.\n\nYou can\x27t have multiple instances of |Thought:| in one response, make all the toughts appear in |Thought:| element.\nMake sure to never provide both |Action:| and |Final Answer:| elements in one response.\nEven if action to perform is none, do not add |Action:| section to the respose.\nDo not repeat actions unnecessarily. Stop when the query is solved.\nDo not try to install additional software on the computer where you are being executed.\n"

/-- run_agent of 2.agent-streaming.py, instrumented with its event trace. -/
def runAgent2 (model : List Turn → String) (exec : String → ExecResult)
    (query : String) (maxSteps : Nat) : RunOut :=
  runLoop (agentStep2 model exec) maxSteps
    [⟨Role.system, systemPrompt2⟩, ⟨Role.user, query⟩]

/-- run_agent of the final variant, instrumented with its event trace. -/
def runAgent6 (env : Env) (query : String) (maxSteps : Nat) : RunOut :=
  runLoop (agentStep6 env query) maxSteps
    [⟨Role.system, systemPrompt6⟩, ⟨Role.user, query⟩]


/-- Claim C1, counterexample: the safety check accepts the response
"not possible please confirm" as safe although its normalization differs from
the exact token NOT POSSIBLE, because the source tests str.startswith rather
than equality. -/
theorem C1_counterexample :
    isCommandSafe (fun _ => "not possible please confirm") "ls" = true ∧
      pyUpper (pyStrip "not possible please confirm") ≠ "NOT POSSIBLE" := by
  exact ⟨rfl, by decide⟩

/-- Claim C1, amended: the verdict is safe exactly when the response, after
trim and uppercase, starts with NOT POSSIBLE; in particular the responses
POSSIBLE, the empty string, and maybe all yield unsafe, while any response
whose normalization begins with NOT POSSIBLE yields safe. -/
theorem C1_gate_rule (resp cmd : String) :
    isCommandSafe (fun _ => resp) cmd =
        startsWithChars (pyUpper (pyStrip resp)).data "NOT POSSIBLE".data ∧
      isCommandSafe (fun _ => "POSSIBLE") cmd = false ∧
      isCommandSafe (fun _ => "") cmd = false ∧
      isCommandSafe (fun _ => "maybe") cmd = false :=
  ⟨rfl, rfl, rfl, rfl⟩

/-- Claim C5: when the underlying process exceeds the 30-second ceiling, the
executor returns the fixed observation "action execution failed with timeout"
(the runtime kills the timed-out child before the handler runs). -/
theorem C5_timeout_observation (exec : String → ExecResult) (cmd : String)
    (h : exec cmd = ExecResult.timedOut) :
    runShellCommand (exec cmd) = "action execution failed with timeout" := by
  rw [h]; rfl

/-- Witness for C5 at a concrete always-timing-out execution environment. -/
theorem C5_timeout_observation_witness :
    (fun _ : String => ExecResult.timedOut) "sleep 60" = ExecResult.timedOut ∧
      runShellCommand ((fun _ : String => ExecResult.timedOut) "sleep 60") =
        "action execution failed with timeout" :=
  ⟨rfl, C5_timeout_observation (fun _ => ExecResult.timedOut) "sleep 60" rfl⟩

/-- Claim C6: a zero exit status returns the trimmed standard output, a
non-zero exit status returns Error: plus the trimmed standard error, and any
other execution fault returns Exception: plus the fault description. -/
theorem C6_exec_outcomes (stdout stderr message : String) (code : Int) (hc : code ≠ 0) :
    runShellCommand (.completed 0 stdout stderr) = pyStrip stdout ∧
      runShellCommand (.completed code stdout stderr) = "Error: " ++ pyStrip stderr ∧
      runShellCommand (.failed message) = "Exception: " ++ message := by
  refine ⟨by simp [runShellCommand], ?_, rfl⟩
  simp [runShellCommand, hc]

/-- Witness for C6 at concrete outputs and the exit status 1. -/
theorem C6_exec_outcomes_witness :
    (1 : Int) ≠ 0 ∧
      (runShellCommand (.completed 0 " /home/user\n" "") = pyStrip " /home/user\n" ∧
        runShellCommand (.completed 1 " /home/user\n" "ls: oops") =
          "Error: " ++ pyStrip "ls: oops" ∧
        runShellCommand (.failed "no interpreter") = "Exception: " ++ "no interpreter") :=
  ⟨by decide, C6_exec_outcomes " /home/user\n" "ls: oops" "no interpreter" 1 (by decide)⟩

/-- Claim C7: without the |Better Answer:| marker the verifier returns the
original candidate unchanged; with the marker it returns the stripped text
after the marker instead. -/
theorem C7_verifier_pass_through (fa resp : String) :
    (occursStr "|Better Answer:|" resp = false → verifierResult fa resp = fa) ∧
      (∀ pre rest, findSplitChars "|Better Answer:|".data resp.data = some (pre, rest) →
        verifierResult fa resp = String.mk (stripChars rest)) := by
  constructor
  · intro hno
    unfold verifierResult
    unfold occursStr at hno
    cases heq : findSplitChars "|Better Answer:|".data resp.data with
    | none => rfl
    | some pr => rw [heq] at hno; simp at hno
  · intro pre rest heq
    unfold verifierResult
    rw [heq]

/-- Witness for C7 in both directions at concrete verification responses. -/
theorem C7_verifier_pass_through_witness :
    verifierResult "42" "Looks good." = "42" ∧
      verifierResult "42" "|Better Answer:| 43" = String.mk (stripChars " 43".data) :=
  ⟨(C7_verifier_pass_through "42" "Looks good.").1 rfl,
    (C7_verifier_pass_through "42" "|Better Answer:| 43").2 [] " 43".data rfl⟩

/-- Claim C2: when the raw model text holds both the Action and the Final
Answer marker, the iteration executes nothing, terminates nothing, appends
nothing, and retries the model call on the unchanged history with one unit of
the shared step budget consumed. -/
theorem C2_malformed_turn_retries (env : Env) (q : String) (fuel : Nat) (h : List Turn)
    (h1 : occursStr "|Action:|" (env.model h) = true)
    (h2 : occursStr "|Final Answer:|" (env.model h) = true) :
    agentStep6 env q h = .next h [.modelCall h] ∧
      runLoop (agentStep6 env q) (fuel + 1) h =
        ⟨(runLoop (agentStep6 env q) fuel h).result,
          .modelCall h :: (runLoop (agentStep6 env q) fuel h).events,
          (runLoop (agentStep6 env q) fuel h).history⟩ := by
  have hstep : agentStep6 env q h = .next h [.modelCall h] := by
    simp [agentStep6, h1, h2]
  exact ⟨hstep, by simp [runLoop, hstep]⟩

/-- Witness for C2 at a model that emits both markers in one response. -/
theorem C2_malformed_turn_retries_witness :
    occursStr "|Action:|" "|Action:| a: b |Final Answer:| c" = true ∧
      occursStr "|Final Answer:|" "|Action:| a: b |Final Answer:| c" = true ∧
      agentStep6 ⟨fun _ => "|Action:| a: b |Final Answer:| c", fun _ => "NOT POSSIBLE",
          fun _ => ExecResult.completed 0 "" "", fun _ => "ok"⟩ "q" [⟨Role.user, "q"⟩] =
        .next [⟨Role.user, "q"⟩] [.modelCall [⟨Role.user, "q"⟩]] :=
  ⟨rfl, rfl,
    (C2_malformed_turn_retries
      ⟨fun _ => "|Action:| a: b |Final Answer:| c", fun _ => "NOT POSSIBLE",
        fun _ => ExecResult.completed 0 "" "", fun _ => "ok"⟩
      "q" 0 [⟨Role.user, "q"⟩] rfl rfl).1⟩

/-- Claim C8, counterexample: on an unknown tool the final variant appends the
observation "Error: Unknown tool: foo", which is not the string
"Unknown tool: foo" the claim states. -/
theorem C8_counterexample :
    agentStep6 ⟨fun _ => "|Action:| foo: x", fun _ => "NOT POSSIBLE",
        fun _ => ExecResult.completed 0 "" "", fun _ => "ok"⟩ "q" [⟨Role.user, "q"⟩] =
      .next [⟨Role.user, "q"⟩, ⟨Role.assistant, "|Action:| foo: x"⟩,
             ⟨Role.user, "Observation: Error: Unknown tool: foo"⟩]
            [.modelCall [⟨Role.user, "q"⟩]] ∧
      ("Error: Unknown tool: foo" : String) ≠ "Unknown tool: foo" := by
  exact ⟨by decide, by decide⟩

/-- Claim C8, amended: on a parsed action whose tool name is outside the
registry, the Executor and Safety Gate are never invoked; the loop appends the
assistant turn and the failure observation "Error: Unknown tool: " plus the
name, and continues to the next iteration. -/
theorem C8_unknown_tool (env : Env) (q : String) (fuel : Nat) (h : List Turn)
    (tool arg : String)
    (hno : occursStr "|Final Answer:|" (env.model h) = false)
    (hfa : (parseOutput6 (env.model h)).finalAnswer = "")
    (hact : (parseOutput6 (env.model h)).action = some (tool, arg))
    (hunk : toolsContains tool = false) :
    agentStep6 env q h =
      .next (h ++ [⟨Role.assistant, env.model h⟩,
                   ⟨Role.user, "Observation: Error: Unknown tool: " ++ tool⟩])
            [.modelCall h] ∧
      runLoop (agentStep6 env q) (fuel + 1) h =
        ⟨(runLoop (agentStep6 env q) fuel
            (h ++ [⟨Role.assistant, env.model h⟩,
                   ⟨Role.user, "Observation: Error: Unknown tool: " ++ tool⟩])).result,
          .modelCall h ::
            (runLoop (agentStep6 env q) fuel
              (h ++ [⟨Role.assistant, env.model h⟩,
                     ⟨Role.user, "Observation: Error: Unknown tool: " ++ tool⟩])).events,
          (runLoop (agentStep6 env q) fuel
            (h ++ [⟨Role.assistant, env.model h⟩,
                   ⟨Role.user, "Observation: Error: Unknown tool: " ++ tool⟩])).history⟩ := by
  have hstep : agentStep6 env q h =
      .next (h ++ [⟨Role.assistant, env.model h⟩,
                   ⟨Role.user, "Observation: Error: Unknown tool: " ++ tool⟩])
            [.modelCall h] := by
    simp [agentStep6, hno, hfa, hact, hunk]
  exact ⟨hstep, by simp [runLoop, hstep]⟩

/-- Witness for C8 amended at the unknown tool name foo. -/
theorem C8_unknown_tool_witness :
    (parseOutput6 "|Action:| foo: x").action = some ("foo", "x") ∧
      toolsContains "foo" = false ∧
      agentStep6 ⟨fun _ => "|Action:| foo: x", fun _ => "NOT POSSIBLE",
          fun _ => ExecResult.completed 0 "" "", fun _ => "ok"⟩ "q" [⟨Role.user, "q"⟩] =
        .next ([⟨Role.user, "q"⟩] ++ [⟨Role.assistant, "|Action:| foo: x"⟩,
               ⟨Role.user, "Observation: Error: Unknown tool: " ++ "foo"⟩])
              [.modelCall [⟨Role.user, "q"⟩]] :=
  ⟨rfl, rfl,
    (C8_unknown_tool
      ⟨fun _ => "|Action:| foo: x", fun _ => "NOT POSSIBLE",
        fun _ => ExecResult.completed 0 "" "", fun _ => "ok"⟩
      "q" 0 [⟨Role.user, "q"⟩] "foo" "x" rfl rfl rfl rfl).1⟩

/-- Claim C3, counterexample: in the regex parser of the streaming variant the
Final Answer capture stops at a later Action marker instead of absorbing the
remaining text after the marker. -/
theorem C3_counterexample :
    (parseOutput2 "|Final Answer:| foo |Action:| bar").finalAnswer = "foo" ∧
      ("foo" : String) ≠ pyStrip " foo |Action:| bar" := by
  exact ⟨rfl, by decide⟩

/-- Two patterns with distinct head characters cannot both begin a text. -/
lemma startsWithChars_ne_head {l p q : List Char} {a b : Char}
    (h : startsWithChars l (a :: p) = true) (hab : a ≠ b) :
    startsWithChars l (b :: q) = false := by
  cases l with
  | nil => simp [startsWithChars] at h
  | cons c cs =>
    have hca : c = a := by
      have hh := h
      simp only [startsWithChars, Bool.and_eq_true, beq_iff_eq] at hh
      exact hh.1
    subst hca
    simp [startsWithChars, hab]

/-- A line starting with the Final Answer marker starts with neither of the
other two line markers of 1.agent.py. -/
lemma faLine_not_other {l : List Char} (h : startsWithChars l markerF.data = true) :
    startsWithChars l markerT.data = false ∧ startsWithChars l markerA.data = false := by
  have hF : markerF.data = 'F' :: "inal Answer:".data := rfl
  have hT : markerT.data = 'T' :: "hought:".data := rfl
  have hA : markerA.data = 'A' :: "ction:".data := rfl
  rw [hF] at h
  exact ⟨hT ▸ startsWithChars_ne_head h (by decide),
         hA ▸ startsWithChars_ne_head h (by decide)⟩

/-- Scanning lines where none before the first Final Answer line carries that
marker, parse_output of 1.agent.py returns the joined remainder of that line
and every following line, whatever accumulators the scan has built. -/
lemma parse1Go_final :
    ∀ (pre post : List String) (faLine : String),
      (∀ l ∈ pre, startsWithChars l.data markerF.data = false) →
      startsWithChars faLine.data markerF.data = true →
      ∀ th ac, (parse1Go th ac (pre ++ faLine :: post)).finalAnswer =
        some (joinNL (String.mk (stripChars (List.drop markerF.length faLine.data)) :: post))
  | [], post, faLine, _, hfa, th, ac => by
    have hother := faLine_not_other hfa
    simp [parse1Go, hother.1, hother.2, hfa]
  | l :: pre2, post, faLine, hpre, hfa, th, ac => by
    have hlF : startsWithChars l.data markerF.data = false := hpre l (List.mem_cons_self l pre2)
    have hpre2 : ∀ x ∈ pre2, startsWithChars x.data markerF.data = false :=
      fun x hx => hpre x (List.mem_cons_of_mem l hx)
    have ih := parse1Go_final pre2 post faLine hpre2 hfa
    cases hT : startsWithChars l.data markerT.data with
    | true => simpa [parse1Go, hT] using ih _ ac
    | false =>
      cases hA : startsWithChars l.data markerA.data with
      | true => simpa [parse1Go, hT, hA] using ih th _
      | false => simpa [parse1Go, hT, hA, hlF] using ih th ac

/-- Claim C3, amended: the line-based parser of 1.agent.py does absorb, into
the final answer, all remaining text after the first Final Answer line,
including later spurious Action or Thought lines; the regex-marker parsers of
the streaming variants instead bound the capture at the next marker. -/
theorem C3_line_parser_absorbs (output : String) (pre post : List String) (faLine : String)
    (hsplit : (splitNLChars (pyStrip output).data).map String.mk = pre ++ faLine :: post)
    (hpre : ∀ l ∈ pre, startsWithChars l.data markerF.data = false)
    (hfa : startsWithChars faLine.data markerF.data = true) :
    (parseOutput1 output).finalAnswer =
      some (joinNL (String.mk (stripChars (List.drop markerF.length faLine.data)) :: post)) := by
  unfold parseOutput1
  rw [hsplit]
  exact parse1Go_final pre post faLine hpre hfa "" none

/-- Witness for C3 amended: a Final Answer line followed by a spurious Action
line and a plain line, all absorbed. -/
theorem C3_line_parser_absorbs_witness :
    startsWithChars "Final Answer: foo".data markerF.data = true ∧
      (parseOutput1 "Final Answer: foo\nAction: spurious: x\ntrailing").finalAnswer =
        some (joinNL (String.mk (stripChars
          (List.drop markerF.length "Final Answer: foo".data)) ::
            ["Action: spurious: x", "trailing"])) :=
  ⟨rfl,
    C3_line_parser_absorbs "Final Answer: foo\nAction: spurious: x\ntrailing"
      [] ["Action: spurious: x", "trailing"] "Final Answer: foo" rfl
      (by intro l hl; simp at hl) rfl⟩

/-- With a backend whose every response parses to no action and no final
answer, each iteration of the streaming loop appends one assistant turn and
recurses, so the whole budget is spent on model calls and the exhaustion
outcome is returned. -/
lemma runLoop2_exhausts (model : List Turn → String) (exec : String → ExecResult)
    (hplain : ∀ h, (parseOutput2 (model h)).finalAnswer = "" ∧
      (parseOutput2 (model h)).action = none) :
    ∀ (fuel : Nat) (h : List Turn),
      (runLoop (agentStep2 model exec) fuel h).result =
          "Max steps reached without final answer." ∧
        (modelHistories (runLoop (agentStep2 model exec) fuel h).events).length = fuel
  | 0, _ => ⟨rfl, rfl⟩
  | fuel + 1, h => by
    have hstep : agentStep2 model exec h =
        .next (h ++ [⟨Role.assistant, model h⟩]) [.modelCall h] := by
      simp [agentStep2, (hplain h).1, (hplain h).2]
    have ih := runLoop2_exhausts model exec hplain fuel (h ++ [⟨Role.assistant, model h⟩])
    refine ⟨?_, ?_⟩
    · simp [runLoop, hstep, ih.1]
    · simp [runLoop, hstep, modelHistories]
      have := ih.2
      simp [modelHistories] at this
      simp [this]

/-- Claim C4: against a backend that always returns plain reasoning text with
no action and no final answer, run_agent performs exactly max_steps = 10 model
calls and returns the distinct exhaustion outcome. -/
theorem C4_budget_termination (model : List Turn → String) (exec : String → ExecResult)
    (query : String)
    (hplain : ∀ h, (parseOutput2 (model h)).finalAnswer = "" ∧
      (parseOutput2 (model h)).action = none) :
    (runAgent2 model exec query 10).result = "Max steps reached without final answer." ∧
      (modelHistories (runAgent2 model exec query 10).events).length = 10 :=
  runLoop2_exhausts model exec hplain 10 _

/-- Witness for C4 at a backend that always answers with plain text. -/
theorem C4_budget_termination_witness :
    (runAgent2 (fun _ => "I am still thinking about it.") (fun _ => ExecResult.timedOut)
        "q" 10).result = "Max steps reached without final answer." ∧
      (modelHistories (runAgent2 (fun _ => "I am still thinking about it.")
        (fun _ => ExecResult.timedOut) "q" 10).events).length = 10 :=
  C4_budget_termination _ _ "q" (fun _ => ⟨rfl, rfl⟩)

/-- Whitespace never begins a pipe-delimited marker. -/
lemma ws_not_pipe {c : Char} (h : isPySpace c = true) : (c == '|') = false := by
  cases hq : c == '|' with
  | false => rfl
  | true =>
    have hc : c = '|' := beq_iff_eq.mp hq
    subst hc
    exact absurd h (by decide)

/-- Whitespace never begins a pipe-delimited marker (text form). -/
lemma startsWith_pipe_false {c : Char} {cs : List Char} (hc : isPySpace c = true)
    {ps : List Char} : startsWithChars (c :: cs) ('|' :: ps) = false := by
  simp [startsWithChars, ws_not_pipe hc]

/-- On all-whitespace text the lazy capture bounded by the streaming markers
consumes everything. -/
lemma cutAtAny_all_ws {l : List Char} (h : l.all isPySpace = true) :
    cutAtAny [mThought.data, mAction.data] l = l := by
  induction l with
  | nil => rfl
  | cons c cs ih =>
    rw [List.all_cons, Bool.and_eq_true] at h
    have e1 : startsWithChars (c :: cs) mThought.data = false := startsWith_pipe_false h.1
    have e2 : startsWithChars (c :: cs) mAction.data = false := startsWith_pipe_false h.1
    simp [cutAtAny, e1, e2, ih h.2]

/-- Dropping leading whitespace from all-whitespace text leaves nothing. -/
lemma dropWhileWs_all_ws {l : List Char} (h : l.all isPySpace = true) :
    dropWhileWs l = [] := by
  induction l with
  | nil => rfl
  | cons c cs ih =>
    rw [List.all_cons, Bool.and_eq_true] at h
    simp [dropWhileWs, h.1, ih h.2]

/-- Stripping all-whitespace text leaves nothing. -/
lemma stripChars_all_ws {l : List Char} (h : l.all isPySpace = true) :
    stripChars l = [] := by
  unfold stripChars
  rw [dropWhileWs_all_ws h]
  rfl

/-- When a stop string of the list begins the text, the lazy capture is empty. -/
lemma cutAtAny_stop_head {stops : List (List Char)} {rest : List Char}
    {p : List Char} {a : Char} {ps : List Char}
    (hp : p ∈ stops) (hps : p = a :: ps)
    (h : startsWithChars rest p = true) : cutAtAny stops rest = [] := by
  cases rest with
  | nil => rw [hps] at h; simp [startsWithChars] at h
  | cons c cs =>
    unfold cutAtAny
    rw [if_pos]
    exact List.any_eq_true.mpr ⟨p, hp, h⟩

/-- Does the text after the first Final Answer marker consist only of
whitespace, or begin immediately with another marker? -/
def faTailTrivial (raw : String) : Bool :=
  match findSplitChars mFinal.data raw.data with
  | none => false
  | some (_, rest) =>
    rest.all isPySpace || startsWithChars rest mThought.data ||
      startsWithChars rest mAction.data

/-- Claim C10: when the Final Answer marker is followed only by whitespace or
immediately by another marker, the regex parser yields the empty final-answer
string, and the loop does not terminate with that empty answer: in the
marker-only case it appends the raw text as an ordinary assistant turn and
continues with one budget unit consumed. -/
theorem C10_empty_final_answer_continues (model : List Turn → String)
    (exec : String → ExecResult) (fuel : Nat) (h : List Turn)
    (htriv : faTailTrivial (model h) = true) :
    (parseOutput2 (model h)).finalAnswer = "" ∧
      ((parseOutput2 (model h)).action = none →
        agentStep2 model exec h = .next (h ++ [⟨Role.assistant, model h⟩]) [.modelCall h] ∧
          runLoop (agentStep2 model exec) (fuel + 1) h =
            ⟨(runLoop (agentStep2 model exec) fuel (h ++ [⟨Role.assistant, model h⟩])).result,
              .modelCall h ::
                (runLoop (agentStep2 model exec) fuel
                  (h ++ [⟨Role.assistant, model h⟩])).events,
              (runLoop (agentStep2 model exec) fuel
                (h ++ [⟨Role.assistant, model h⟩])).history⟩) := by
  have hfa : (parseOutput2 (model h)).finalAnswer = "" := by
    unfold faTailTrivial at htriv
    cases heq : findSplitChars mFinal.data (model h).data with
    | none => rw [heq] at htriv; simp at htriv
    | some pr =>
      rw [heq] at htriv
      obtain ⟨pre, rest⟩ := pr
      simp only [Bool.or_eq_true] at htriv
      have hres : stripChars (cutAtAny [mThought.data, mAction.data] rest) = [] := by
        rcases htriv with (hws | hsT) | hsA
        · rw [cutAtAny_all_ws hws]
          exact stripChars_all_ws hws
        · rw [cutAtAny_stop_head (List.mem_cons_self _ _)
            (rfl : mThought.data = '|' :: "Thought:|".data) hsT]
          rfl
        · rw [cutAtAny_stop_head (List.mem_cons_of_mem _ (List.mem_cons_self _ _))
            (rfl : mAction.data = '|' :: "Action:|".data) hsA]
          rfl
      simp only [parseOutput2, sectionCapture2, heq, Option.map_some', Option.getD_some]
      rw [hres]
  refine ⟨hfa, fun hact => ?_⟩
  have hstep : agentStep2 model exec h =
      .next (h ++ [⟨Role.assistant, model h⟩]) [.modelCall h] := by
    simp [agentStep2, hfa, hact]
  exact ⟨hstep, by simp [runLoop, hstep]⟩

/-- Witness for C10: a thought followed by a Final Answer marker trailed only
by spaces parses to the empty answer and the loop continues. -/
theorem C10_empty_final_answer_continues_witness :
    faTailTrivial "|Thought:| t |Final Answer:|  " = true ∧
      (parseOutput2 "|Thought:| t |Final Answer:|  ").finalAnswer = "" ∧
      agentStep2 (fun _ => "|Thought:| t |Final Answer:|  ") (fun _ => ExecResult.timedOut)
          [⟨Role.user, "q"⟩] =
        .next ([⟨Role.user, "q"⟩] ++ [⟨Role.assistant, "|Thought:| t |Final Answer:|  "⟩])
              [.modelCall [⟨Role.user, "q"⟩]] := by
  have H := C10_empty_final_answer_continues (fun _ => "|Thought:| t |Final Answer:|  ")
    (fun _ => ExecResult.timedOut) 0 [⟨Role.user, "q"⟩] rfl
  exact ⟨rfl, H.1, (H.2 rfl).1⟩

/-- Does this turn carry an action request under the given grammar? -/
def turnHasAction (parse : String → ParsedTurn) (t : Turn) : Bool :=
  (t.role == Role.assistant) && (parse t.content).action.isSome

/-- Is this turn an Observation turn (a user turn whose content starts with
the Observation tag)? -/
def isObservationTurn (t : Turn) : Bool :=
  (t.role == Role.user) && startsWithChars t.content.data "Observation: ".data

/-- Is the head of the remaining history an Observation turn? -/
def nextOk : List Turn → Bool
  | u :: _ => isObservationTurn u
  | [] => false

/-- Every turn carrying an action request is immediately followed by an
Observation turn. -/
def histInv (parse : String → ParsedTurn) : List Turn → Bool
  | [] => true
  | t :: rest => (!turnHasAction parse t || nextOk rest) && histInv parse rest

lemma beq_system_assistant : (Role.system == Role.assistant) = false := rfl

lemma beq_user_assistant : (Role.user == Role.assistant) = false := rfl

lemma beq_assistant_assistant : (Role.assistant == Role.assistant) = true := rfl

/-- The empty pattern begins every text. -/
lemma startsWithChars_nil (l : List Char) : startsWithChars l [] = true := by
  cases l <;> rfl

/-- A pattern begins any of its own extensions. -/
lemma startsWithChars_append (p r : List Char) : startsWithChars (p ++ r) p = true := by
  induction p with
  | nil => exact startsWithChars_nil r
  | cons c cs ih => simp [startsWithChars, ih]

/-- Beginning with a pattern is stable under extending the text. -/
lemma startsWithChars_append_of {p q : List Char} (r : List Char)
    (hpq : startsWithChars p q = true) : startsWithChars (p ++ r) q = true := by
  induction q generalizing p with
  | nil => exact startsWithChars_nil _
  | cons b qs ih =>
    cases p with
    | nil => simp [startsWithChars] at hpq
    | cons c cs =>
      simp only [startsWithChars, Bool.and_eq_true] at hpq
      simp only [List.cons_append, startsWithChars, Bool.and_eq_true]
      exact ⟨hpq.1, ih hpq.2⟩

/-- A user turn whose content is the Observation tag followed by anything is
an Observation turn. -/
lemma isObservationTurn_mk (s : String) :
    isObservationTurn ⟨Role.user, "Observation: " ++ s⟩ = true := by
  show ((Role.user == Role.user) &&
    startsWithChars ("Observation: " ++ s).data "Observation: ".data) = true
  rw [String.data_append, startsWithChars_append]
  rfl

/-- The same for the unknown-tool observation, whose literal extends the tag. -/
lemma isObservationTurn_unknown (tool : String) :
    isObservationTurn ⟨Role.user, "Observation: Error: Unknown tool: " ++ tool⟩ = true := by
  show ((Role.user == Role.user) &&
    startsWithChars ("Observation: Error: Unknown tool: " ++ tool).data
      "Observation: ".data) = true
  rw [String.data_append, startsWithChars_append_of tool.data (by rfl :
    startsWithChars "Observation: Error: Unknown tool: ".data "Observation: ".data = true)]
  rfl

/-- A user turn never carries an action request. -/
lemma turnHasAction_user (parse : String → ParsedTurn) (s : String) :
    turnHasAction parse ⟨Role.user, s⟩ = false := by
  simp [turnHasAction, beq_user_assistant]

/-- Appending an assistant turn together with its Observation turn preserves
the invariant. -/
lemma histInv_append_two (parse : String → ParsedTurn) (h : List Turn) (a o : Turn)
    (hh : histInv parse h = true) (ho : isObservationTurn o = true)
    (hoa : turnHasAction parse o = false) :
    histInv parse (h ++ [a, o]) = true := by
  induction h with
  | nil => simp [histInv, nextOk, ho, hoa]
  | cons t rest ih =>
    simp only [histInv, Bool.and_eq_true] at hh
    have hrest := ih hh.2
    simp only [List.cons_append, histInv, Bool.and_eq_true]
    refine ⟨?_, hrest⟩
    cases rest with
    | nil =>
      have h1 := hh.1
      simp [nextOk] at h1
      simp [nextOk, h1]
    | cons u rs =>
      simpa [nextOk] using hh.1

/-- Appending an action-less assistant turn preserves the invariant. -/
lemma histInv_append_one (parse : String → ParsedTurn) (h : List Turn) (a : Turn)
    (hh : histInv parse h = true) (ha : turnHasAction parse a = false) :
    histInv parse (h ++ [a]) = true := by
  induction h with
  | nil => simp [histInv, nextOk, ha]
  | cons t rest ih =>
    simp only [histInv, Bool.and_eq_true] at hh
    have hrest := ih hh.2
    simp only [List.cons_append, histInv, Bool.and_eq_true]
    refine ⟨?_, hrest⟩
    cases rest with
    | nil =>
      have h1 := hh.1
      simp [nextOk] at h1
      simp [nextOk, h1]
    | cons u rs =>
      simpa [nextOk] using hh.1

/-- One iteration of the final-variant loop preserves the invariant: every
continuation history keeps it, and every event list of an iteration carries
exactly one model call, made on the incoming history. -/
lemma agentStep6_inv (env : Env) (q : String) (h : List Turn)
    (hh : histInv parseOutput6 h = true) :
    (∀ h2 evs, agentStep6 env q h = .next h2 evs →
      histInv parseOutput6 h2 = true ∧ modelHistories evs = [h]) ∧
    (∀ res evs, agentStep6 env q h = .done res evs → modelHistories evs = [h]) := by
  constructor
  · intro h2 evs hstep
    simp only [agentStep6] at hstep
    split at hstep
    · cases hstep
      exact ⟨hh, rfl⟩
    · split at hstep
      · cases hstep
      · split at hstep
        · split at hstep
          · split at hstep
            · cases hstep
              refine ⟨histInv_append_two _ _ _ _ hh (isObservationTurn_mk _)
                (turnHasAction_user _ _), rfl⟩
            · cases hstep
              refine ⟨histInv_append_two _ _ _ _ hh (isObservationTurn_mk _)
                (turnHasAction_user _ _), ?_⟩
              split <;> rfl
          · cases hstep
            refine ⟨histInv_append_two _ _ _ _ hh (isObservationTurn_unknown _)
              (turnHasAction_user _ _), rfl⟩
        · rename_i heq
          cases hstep
          refine ⟨histInv_append_one _ _ _ hh ?_, rfl⟩
          simp [turnHasAction, beq_assistant_assistant, heq]
  · intro res evs hstep
    simp only [agentStep6] at hstep
    split at hstep
    · cases hstep
    · split at hstep
      · cases hstep
        rfl
      · split at hstep
        · split at hstep
          · split at hstep
            · cases hstep
            · cases hstep
          · cases hstep
        · cases hstep

/-- One iteration of the streaming loop preserves the invariant likewise. -/
lemma agentStep2_inv (model : List Turn → String) (exec : String → ExecResult)
    (h : List Turn) (hh : histInv parseOutput2 h = true) :
    (∀ h2 evs, agentStep2 model exec h = .next h2 evs →
      histInv parseOutput2 h2 = true ∧ modelHistories evs = [h]) ∧
    (∀ res evs, agentStep2 model exec h = .done res evs → modelHistories evs = [h]) := by
  constructor
  · intro h2 evs hstep
    simp only [agentStep2] at hstep
    split at hstep
    · cases hstep
    · split at hstep
      · split at hstep
        · cases hstep
          refine ⟨histInv_append_two _ _ _ _ hh (isObservationTurn_mk _)
            (turnHasAction_user _ _), rfl⟩
        · cases hstep
          exact ⟨hh, rfl⟩
      · rename_i heq
        cases hstep
        refine ⟨histInv_append_one _ _ _ hh ?_, rfl⟩
        simp [turnHasAction, beq_assistant_assistant, heq]
  · intro res evs hstep
    simp only [agentStep2] at hstep
    split at hstep
    · cases hstep
      rfl
    · split at hstep
      · split at hstep <;> cases hstep
      · cases hstep

/-- Every history handed to the model during a run satisfies the invariant,
provided each iteration preserves it. -/
lemma runLoop_histories (step : List Turn → StepRes) (P : List Turn → Bool)
    (hpres : ∀ h, P h = true →
      (∀ h2 evs, step h = .next h2 evs → P h2 = true ∧ modelHistories evs = [h]) ∧
      (∀ res evs, step h = .done res evs → modelHistories evs = [h])) :
    ∀ (fuel : Nat) (h : List Turn), P h = true →
      ∀ x ∈ modelHistories (runLoop step fuel h).events, P x = true
  | 0, h, _ => by
    intro x hx
    simp [runLoop, modelHistories] at hx
  | fuel + 1, h, hh => by
    intro x hx
    cases hs : step h with
    | done res evs =>
      rw [show (runLoop step (fuel + 1) h).events = evs by simp [runLoop, hs]] at hx
      rw [(hpres h hh).2 res evs hs] at hx
      simp at hx
      rw [hx]
      exact hh
    | next h2 evs =>
      obtain ⟨hP2, hmh⟩ := (hpres h hh).1 h2 evs hs
      have ih := runLoop_histories step P hpres fuel h2 hP2
      rw [show (runLoop step (fuel + 1) h).events = evs ++ (runLoop step fuel h2).events by
        simp [runLoop, hs]] at hx
      rw [show modelHistories (evs ++ (runLoop step fuel h2).events) =
        modelHistories evs ++ modelHistories (runLoop step fuel h2).events by
        simp [modelHistories, List.filterMap_append]] at hx
      rw [hmh] at hx
      rcases List.mem_append.mp hx with hx1 | hx2
      · rw [List.mem_singleton.mp hx1]
        exact hh
      · exact ih x hx2

/-- The initial history of a run satisfies the invariant: neither the system
prompt turn nor the user query turn is an assistant action turn. -/
lemma histInv_init (parse : String → ParsedTurn) (sysPrompt q : String) :
    histInv parse [⟨Role.system, sysPrompt⟩, ⟨Role.user, q⟩] = true := by
  simp [histInv, nextOk, turnHasAction, beq_system_assistant, beq_user_assistant]

/-- Claim C9: at every point where either loop issues a model call, the
conversation handed over contains no assistant turn carrying an action request
that is not immediately followed by an Observation turn. -/
theorem C9_no_orphaned_action (env : Env) (model2 : List Turn → String)
    (exec2 : String → ExecResult) (q q2 : String) (fuel fuel2 : Nat) :
    (∀ x ∈ modelHistories (runAgent6 env q fuel).events, histInv parseOutput6 x = true) ∧
      (∀ x ∈ modelHistories (runAgent2 model2 exec2 q2 fuel2).events,
        histInv parseOutput2 x = true) :=
  ⟨runLoop_histories (agentStep6 env q) (histInv parseOutput6)
      (fun h hh => agentStep6_inv env q h hh) fuel _ (histInv_init _ _ _),
    runLoop_histories (agentStep2 model2 exec2) (histInv parseOutput2)
      (fun h hh => agentStep2_inv model2 exec2 h hh) fuel2 _ (histInv_init _ _ _)⟩

set_option maxRecDepth 8000 in
/-- Witness for C9 at a concrete one-step run of each loop. -/
theorem C9_no_orphaned_action_witness :
    histInv parseOutput6 [⟨Role.system, systemPrompt6⟩, ⟨Role.user, "q"⟩] = true ∧
      histInv parseOutput2 [⟨Role.system, systemPrompt2⟩, ⟨Role.user, "q"⟩] = true :=
  ⟨(C9_no_orphaned_action
        ⟨fun _ => "thinking", fun _ => "NOT POSSIBLE",
          fun _ => ExecResult.completed 0 "" "", fun _ => "ok"⟩
        (fun _ => "thinking") (fun _ => ExecResult.timedOut) "q" "q" 1 1).1
      [⟨Role.system, systemPrompt6⟩, ⟨Role.user, "q"⟩] (by decide),
    (C9_no_orphaned_action
        ⟨fun _ => "thinking", fun _ => "NOT POSSIBLE",
          fun _ => ExecResult.completed 0 "" "", fun _ => "ok"⟩
        (fun _ => "thinking") (fun _ => ExecResult.timedOut) "q" "q" 1 1).2
      [⟨Role.system, systemPrompt2⟩, ⟨Role.user, "q"⟩] (by decide)⟩
